import Mathlib

/-!
Verification of the PyWebIO Flask backend (src/pywebio/platform/flask.py).

The module keeps two process-wide structures:
  `_webio_sessions : Dict[str, Session]`   -- the Session Registry,
  `_webio_expire   : LRUDict`              -- WebIOSessionID -> last active timestamp,
plus the scalar `_last_check_session_expire_ts`.  The request handler
`_webio_view` classifies each request (test probe / new session / unknown
session / continuing session), pushes a POST payload into the session,
opportunistically runs `_remove_expired_sessions`, pulls the pending
messages, removes the session when it reports itself closed, and attaches
the `webio-session-id` header on newly created sessions.

The embedding below models the two dictionaries as association lists
(Python dicts have unique keys; order of `_webio_expire` is significant,
front = least recently active), time as an `Int` supplied per request, and
exceptions (`KeyError` raised by `del d[k]` on a missing key) as `Option`.
Side effects on sessions are additionally recorded as an `Effect` trace so
that ordering properties can be stated.
-/

namespace PyWebIO

/-- Lookup in an association list, modelling Python dict indexing. -/
def dget {α : Type} (m : List (String × α)) (k : String) : Option α :=
  match m with
  | [] => none
  | (k1, v) :: rest => if k1 = k then some v else dget rest k

/-- The key list of an association list (Python `d.keys()`). -/
def keys {α : Type} (m : List (String × α)) : List String :=
  m.map Prod.fst

/-- Python dict assignment `d[k] = v`: update in place if the key is
present (keeping its position), otherwise append at the end. -/
def dset {α : Type} (m : List (String × α)) (k : String) (v : α) : List (String × α) :=
  match m with
  | [] => [(k, v)]
  | (k1, v1) :: rest => if k1 = k then (k, v) :: rest else (k1, v1) :: dset rest k v

/-- Remove every binding of key `k` (on dictionaries with unique keys this
is exactly Python `del d[k]` when `k` is present). -/
def dropKey {α : Type} (m : List (String × α)) (k : String) : List (String × α) :=
  match m with
  | [] => []
  | (k1, v) :: rest => if k1 = k then dropKey rest k else (k1, v) :: dropKey rest k

/-- Python `del d[k]`: raises `KeyError` (modelled as `none`) when the key
is absent, otherwise removes the binding. -/
def ddel {α : Type} (m : List (String × α)) (k : String) : Option (List (String × α)) :=
  if k ∈ keys m then some (dropKey m k) else none

/-- Modelled from the spec: `LRUDict.__setitem__` of `pywebio.utils` (the
Expiry Tracker's `touch`): insert or move the identifier to the most
recently active end (the back of the list), storing the given timestamp. -/
def lruSet (m : List (String × Int)) (k : String) (v : Int) : List (String × Int) :=
  dropKey m k ++ [(k, v)]

/-- Modelled from the spec: `OrderedDict.move_to_end(k, last=False)` used by
`_remove_expired_sessions`: move the binding of `k` to the least recently
active end (the front); `KeyError` (`none`) when `k` is absent. -/
def lruMoveToFront (m : List (String × Int)) (k : String) : Option (List (String × Int)) :=
  match dget m k with
  | none => none
  | some v => some ((k, v) :: dropKey m k)

/-- Which concrete session class `_webio_view` instantiates. -/
inductive SessionKind
  | coroutineBased
  | threadBased
deriving DecidableEq, Repr

/-- One message of `get_task_messages()`, a command object of the wire
protocol (`jsonify` turns a list of these into the response body). -/
structure Msg where
  command : String
  rest : Nat
deriving DecidableEq, Repr

/-- A Session object as the registry observes it: the entry point it was
built on, the log of client events delivered by `send_client_event`, and
its externally supplied pull/closed behaviour. -/
structure Session where
  kind : SessionKind
  entry : Nat
  pushed : List Nat
  msgs : List Msg
  closedFlag : Bool
deriving DecidableEq, Repr

/-- `webio_session.send_client_event(data)`: the event is delivered into
the session object (recorded in its `pushed` log). -/
def send_client_event (s : Session) (e : Nat) : Session :=
  { s with pushed := s.pushed ++ [e] }

/-- `webio_session.get_task_messages()`. -/
def get_task_messages (s : Session) : List Msg :=
  s.msgs

/-- `webio_session.closed()`. -/
def Session.closed (s : Session) : Bool :=
  s.closedFlag

/-- The module globals of flask.py bundled into one state. -/
structure ServerState where
  sessions : List (String × Session)
  expire : List (String × Int)
  lastCheckTs : Int
deriving DecidableEq, Repr

/-- Initial module state: both dictionaries empty and
`_last_check_session_expire_ts = 0`. -/
def initialState : ServerState :=
  { sessions := [], expire := [], lastCheckTs := 0 }

def DEFAULT_SESSION_EXPIRE_SECONDS : Int := 60 * 60 * 4

def REMOVE_EXPIRED_SESSIONS_INTERVAL : Int := 120

/-- The body of the `while _webio_expire:` loop of
`_remove_expired_sessions`, recursing over the tracker list (front =
least recently active, as popped by `popitem(last=False)`).  A fresh head
is re-inserted (`_webio_expire[sid] = active_ts` followed by
`move_to_end(sid, last=False)`) and the loop breaks; an expired head is
deleted from the registry (`del _webio_sessions[sid]`, `none` on
`KeyError`) and the loop continues. -/
def sweepLoop (B T : Int) (ss : List (String × Session)) (ex : List (String × Int)) :
    Option (List (String × Session) × List (String × Int)) :=
  match ex with
  | [] => some (ss, [])
  | (sid, ts) :: rest =>
    if T - ts < B then
      (lruMoveToFront (lruSet rest sid ts) sid).map (fun ex1 => (ss, ex1))
    else
      match ddel ss sid with
      | none => none
      | some ss1 => sweepLoop B T ss1 rest

/-- `_remove_expired_sessions(session_expire_seconds)` run at time `T`
(the code re-reads `time.time()` each iteration; the model uses one
instant for the whole call, as the spec does). -/
def _remove_expired_sessions (B T : Int) (st : ServerState) : Option ServerState :=
  match sweepLoop B T st.sessions st.expire with
  | none => none
  | some (ss, ex) => some { st with sessions := ss, expire := ex }

/-- `_remove_webio_session(sid)`: `del _webio_sessions[sid]` then
`del _webio_expire[sid]`; `none` models the `KeyError` on a missing key. -/
def _remove_webio_session (sid : String) (st : ServerState) : Option ServerState :=
  match ddel st.sessions sid with
  | none => none
  | some ss =>
    match ddel st.expire sid with
    | none => none
    | some ex => some { st with sessions := ss, expire := ex }

/-- HTTP method of the request (`/io` accepts GET and POST). -/
inductive Method
  | get
  | post
deriving DecidableEq, Repr

/-- An incoming request: truthiness of the `test` query parameter, the raw
`webio-session-id` header (absent, or a possibly empty string), the
method, and the JSON payload of a POST. -/
structure Request where
  test : Bool
  header : Option String
  method : Method
  payload : Nat
deriving DecidableEq, Repr

/-- Per-request environment: the current wall-clock time, the random
source consumed by `random_str`, the behaviour a freshly instantiated
session will exhibit (its pull result and closed flag), and which session
implementation `get_session_implement()` selects. -/
structure Env where
  now : Int
  rand : Nat → Char
  newMsgs : List Msg
  newClosed : Bool
  useCoroutine : Bool

/-- Modelled from the spec: `random_str(24)` of `pywebio.utils` (not under
src/) generates an unguessable token of 24 random characters; the random
source is abstracted as a character oracle. -/
def random_str (rand : Nat → Char) (n : Nat) : String :=
  String.mk ((List.range n).map rand)

/-- The identifier a request effectively presents: the header must be
present and non-empty (`'webio-session-id' not in request.headers or not
request.headers['webio-session-id']` starts a new session). -/
def reqSid (req : Request) : Option String :=
  match req.header with
  | none => none
  | some s => if s = "" then none else some s

/-- Observable side effects of one request, in execution order. -/
inductive Effect
  | pushEv (sid : String) (e : Nat)
  | sweepRun
  | pullMsgs (sid : String)
  | removeSession (sid : String)
  | headerSet (sid : String)
deriving DecidableEq, Repr

/-- A response: the literal text answer of the test probe, or a JSON
message list with an optional `webio-session-id` header. -/
inductive HttpResponse
  | text (s : String)
  | json (body : List Msg) (sidHeader : Option String)
deriving DecidableEq, Repr

/-- `_make_response(webio_session)`: `jsonify` the pulled task messages
(no session header yet). -/
def _make_response (s : Session) : HttpResponse :=
  HttpResponse.json (get_task_messages s) none

/-- Attaching `response.headers['webio-session-id'] = webio_session_id`. -/
def setSidHeader (r : HttpResponse) (sid : String) : HttpResponse :=
  match r with
  | HttpResponse.text t => HttpResponse.text t
  | HttpResponse.json b _ => HttpResponse.json b (some sid)

/-- The opportunistic sweep of `_webio_view`: when more than
`REMOVE_EXPIRED_SESSIONS_INTERVAL` has elapsed since
`_last_check_session_expire_ts`, run `_remove_expired_sessions` and
advance the scalar. Returns the trace fragment it produced. -/
def sweepIfDue (B : Int) (env : Env) (st : ServerState) :
    Option (ServerState × List Effect) :=
  if env.now - st.lastCheckTs > REMOVE_EXPIRED_SESSIONS_INTERVAL then
    match _remove_expired_sessions B env.now st with
    | none => none
    | some sw => some ({ sw with lastCheckTs := env.now }, [Effect.sweepRun])
  else
    some (st, [])

/-- The POST branch of `_webio_view`: `webio_session.send_client_event
(request.json)`.  Returns the local session object, the state (the
registry entry of `sid` reflects the push because the dict aliases the
local object), and the trace fragment.  A GET is a pure poll: no push. -/
def pushStage (req : Request) (sid : String) (sess : Session) (st : ServerState) :
    Session × ServerState × List Effect :=
  if req.method = Method.post then
    (send_client_event sess req.payload,
     { st with sessions := dset st.sessions sid (send_client_event sess req.payload) },
     [Effect.pushEv sid req.payload])
  else
    (sess, st, [])

/-- The tail of `_webio_view` after the pull: `response =
_make_response(webio_session)`, then the closed-check with removal, else
the `webio-session-id` header attachment when `set_header` is on. -/
def closeStage (sid : String) (sh : Bool) (sess1 : Session) (st2 : ServerState) :
    Option (ServerState × HttpResponse × List Effect) :=
  let resp := _make_response sess1
  if Session.closed sess1 then
    match _remove_webio_session sid st2 with
    | none => none
    | some st3 => some (st3, resp, [Effect.removeSession sid])
  else if sh then
    some (st2, setSidHeader resp sid, [Effect.headerSet sid])
  else
    some (st2, resp, [])

/-- The tail of `_webio_view` after state resolution, with `sid` the
resolved identifier, `sh` the `set_header` flag and `sess` the local
`webio_session` object: POST push, opportunistic sweep, pull
(`_make_response`), closed-check and removal, header attachment, with the
side effects collected in exactly that order. -/
def mainPhase (B : Int) (env : Env) (req : Request) (sid : String) (sh : Bool)
    (sess : Session) (st : ServerState) :
    Option (ServerState × HttpResponse × List Effect) :=
  (sweepIfDue B env (pushStage req sid sess st).2.1).bind (fun sw =>
    (closeStage sid sh (pushStage req sid sess st).1 sw.1).map (fun out =>
      (out.1, out.2.1,
        (pushStage req sid sess st).2.2 ++ sw.2 ++ [Effect.pullMsgs sid] ++ out.2.2)))

/-- The session object built for a request starting a new session:
`CoroutineBasedSession(coro_func)` or `ThreadBasedSession(coro_func)`
according to `get_session_implement()`. -/
def newSession (env : Env) (coro : Nat) : Session :=
  if env.useCoroutine then
    { kind := SessionKind.coroutineBased, entry := coro, pushed := [],
      msgs := env.newMsgs, closedFlag := env.newClosed }
  else
    { kind := SessionKind.threadBased, entry := coro, pushed := [],
      msgs := env.newMsgs, closedFlag := env.newClosed }

/-- `_webio_view(coro_func, session_expire_seconds)` acting on the module
state; `none` models an uncaught `KeyError`.  The test probe answers
first; a request without a (non-empty) identifier registers a fresh
session under `random_str(24)` and seeds its expiry record with the
current time; an unknown identifier is answered by the single
`close_session` command; otherwise the registered session is used. -/
def _webio_view (coro : Nat) (B : Int) (env : Env) (req : Request) (st : ServerState) :
    Option (ServerState × HttpResponse × List Effect) :=
  if req.test then
    some (st, HttpResponse.text "ok", [])
  else
    match reqSid req with
    | none =>
      let sid := random_str env.rand 24
      let sess := newSession env coro
      mainPhase B env req sid true sess
        { st with sessions := dset st.sessions sid sess,
                  expire := lruSet st.expire sid env.now }
    | some sid =>
      match dget st.sessions sid with
      | none => some (st, HttpResponse.json [Msg.mk "close_session" 0] none, [])
      | some sess => mainPhase B env req sid false sess st

/-- The pairing invariant of §3 of the spec: an expiry record exists iff a
live registry entry exists (stated over key lists, decidably). -/
def pairedState (st : ServerState) : Prop :=
  (∀ k ∈ keys st.sessions, k ∈ keys st.expire) ∧
  (∀ k ∈ keys st.expire, k ∈ keys st.sessions)

instance (st : ServerState) : Decidable (pairedState st) := by
  unfold pairedState
  infer_instance

/-- Well-formedness both Python dicts enjoy by construction: unique keys. -/
def wfState (st : ServerState) : Prop :=
  (keys st.sessions).Nodup ∧ (keys st.expire).Nodup

instance (st : ServerState) : Decidable (wfState st) := by
  unfold wfState
  infer_instance

/-- The eviction condition of the sweep, as a Boolean predicate on tracker
entries: the entry's age at time `T` has reached the idle budget `B`. -/
def isExpired (B T : Int) (p : String × Int) : Bool :=
  decide (B ≤ T - p.2)

/-- Iterated `dropKey`, used to describe the registry deletions a sweep
performs. -/
def dropKeys {α : Type} (m : List (String × α)) (ks : List String) :
    List (String × α) :=
  match ks with
  | [] => m
  | k :: rest => dropKeys (dropKey m k) rest

/-! Concrete fixtures for the closed examples below. -/

/-- A constant character oracle. -/
def charA : Nat → Char := fun _ => 'a'

/-- The 24-character identifier `random_str` yields from `charA`. -/
def sidA : String := random_str charA 24

/-- A live session with one pending output message. -/
def sessEx : Session :=
  { kind := SessionKind.threadBased, entry := 0, pushed := [],
    msgs := [Msg.mk "output" 1], closedFlag := false }

/-- Environment whose freshly created sessions stay open. -/
def envEx : Env :=
  { now := 1000, rand := charA, newMsgs := [], newClosed := false,
    useCoroutine := false }

/-- Environment whose freshly created session reports itself closed
after the first pull. -/
def envClosing : Env :=
  { now := 1000, rand := charA, newMsgs := [Msg.mk "text" 0], newClosed := true,
    useCoroutine := false }

/-- A GET with no `webio-session-id` header. -/
def reqFresh : Request :=
  { test := false, header := none, method := Method.get, payload := 0 }

/-- A GET with a truthy `test` query parameter that also presents an
identifier. -/
def reqProbe : Request :=
  { test := true, header := some "x", method := Method.get, payload := 0 }

/-- A pure GET poll presenting identifier `s`. -/
def reqPoll (s : String) : Request :=
  { test := false, header := some s, method := Method.get, payload := 0 }

/-- A POST carrying payload `5`, presenting identifier `s`. -/
def reqPush (s : String) : Request :=
  { test := false, header := some s, method := Method.post, payload := 5 }

/-- A registry holding the single session `"s"`. -/
def stOne : ServerState :=
  { sessions := [("s", sessEx)], expire := [("s", 990)], lastCheckTs := 1000 }

/-- Three sessions, the two least recently active of which are long
expired at time 1000 with budget 100. -/
def stSweep : ServerState :=
  { sessions := [("a", sessEx), ("b", sessEx), ("c", sessEx)],
    expire := [("a", 1), ("b", 2), ("c", 950)], lastCheckTs := 0 }

/-! Basic lemmas about the dictionary operations. -/

@[simp] theorem keys_nil {α : Type} : keys ([] : List (String × α)) = [] :=
  rfl

@[simp] theorem keys_cons {α : Type} (k : String) (v : α) (m : List (String × α)) :
    keys ((k, v) :: m) = k :: keys m :=
  rfl

theorem dget_cons {α : Type} (k1 : String) (v : α) (rest : List (String × α)) (k : String) :
    dget ((k1, v) :: rest) k = if k1 = k then some v else dget rest k :=
  rfl

theorem dropKey_cons {α : Type} (k1 : String) (v : α) (rest : List (String × α)) (k : String) :
    dropKey ((k1, v) :: rest) k =
      if k1 = k then dropKey rest k else (k1, v) :: dropKey rest k :=
  rfl

theorem dget_eq_none_iff {α : Type} (m : List (String × α)) (k : String) :
    dget m k = none ↔ k ∉ keys m := by
  induction m with
  | nil => simp [dget, keys]
  | cons p rest ih =>
    obtain ⟨k1, v⟩ := p
    by_cases h : k1 = k
    · subst h
      simp [dget, keys]
    · simp [dget, keys, h, ih, Ne.symm h]

theorem dget_isSome_iff {α : Type} (m : List (String × α)) (k : String) :
    (dget m k).isSome ↔ k ∈ keys m := by
  rw [Option.isSome_iff_ne_none, ne_eq, dget_eq_none_iff, not_not]

theorem mem_keys_iff {α : Type} (m : List (String × α)) (a : String) :
    a ∈ keys m ↔ ∃ v, (a, v) ∈ m := by
  constructor
  · intro h
    rcases List.mem_map.mp h with ⟨⟨x, y⟩, hm, he⟩
    exact ⟨y, he ▸ hm⟩
  · rintro ⟨v, hv⟩
    exact List.mem_map.mpr ⟨(a, v), hv, rfl⟩

theorem keys_append {α : Type} (l1 l2 : List (String × α)) :
    keys (l1 ++ l2) = keys l1 ++ keys l2 := by
  simp [keys]

theorem dget_append {α : Type} (l1 l2 : List (String × α)) (k : String) :
    dget (l1 ++ l2) k = match dget l1 k with
      | some v => some v
      | none => dget l2 k := by
  induction l1 with
  | nil => simp [dget]
  | cons p rest ih =>
    obtain ⟨k1, v⟩ := p
    by_cases h : k1 = k <;> simp [dget, h, ih]

theorem dget_eq_of_mem {α : Type} {m : List (String × α)} {a : String} {v : α}
    (hnd : (keys m).Nodup) (hm : (a, v) ∈ m) : dget m a = some v := by
  induction m with
  | nil => simp at hm
  | cons p rest ih =>
    obtain ⟨k1, v1⟩ := p
    have hnd1 : k1 ∉ keys rest ∧ (keys rest).Nodup := by
      simpa [keys] using hnd
    rcases List.mem_cons.mp hm with h | h
    · injection h with h1 h2
      subst h1
      subst h2
      simp [dget]
    · have hak : k1 ≠ a := by
        rintro rfl
        exact hnd1.1 ((mem_keys_iff rest k1).mpr ⟨v, h⟩)
      simp [dget, hak, ih hnd1.2 h]

theorem dget_dset_self {α : Type} (m : List (String × α)) (k : String) (v : α) :
    dget (dset m k v) k = some v := by
  induction m with
  | nil => simp [dset, dget]
  | cons p rest ih =>
    obtain ⟨k1, v1⟩ := p
    by_cases h : k1 = k <;> simp [dset, dget, h, ih]

theorem dget_dset_ne {α : Type} (m : List (String × α)) (k a : String) (v : α)
    (hne : a ≠ k) : dget (dset m k v) a = dget m a := by
  induction m with
  | nil => simp [dset, dget, Ne.symm hne]
  | cons p rest ih =>
    obtain ⟨k1, v1⟩ := p
    by_cases h : k1 = k
    · subst h
      simp [dset, dget, Ne.symm hne]
    · simp [dset, dget, h, ih]

theorem mem_keys_dset {α : Type} (m : List (String × α)) (k a : String) (v : α) :
    a ∈ keys (dset m k v) ↔ a = k ∨ a ∈ keys m := by
  induction m with
  | nil => simp [dset]
  | cons p rest ih =>
    obtain ⟨k1, v1⟩ := p
    by_cases h : k1 = k
    · subst h
      rw [show dset ((k1, v1) :: rest) k1 v = (k1, v) :: rest from by simp [dset]]
      simp only [keys_cons, List.mem_cons]
      tauto
    · rw [show dset ((k1, v1) :: rest) k v = (k1, v1) :: dset rest k v from by
        simp [dset, h]]
      simp only [keys_cons, List.mem_cons, ih]
      tauto

theorem mem_keys_dset_self {α : Type} (m : List (String × α)) (k : String) (v : α) :
    k ∈ keys (dset m k v) := by
  rw [mem_keys_dset]
  exact Or.inl rfl

theorem keys_dset_of_mem {α : Type} {m : List (String × α)} {k : String} (v : α)
    (hk : k ∈ keys m) : keys (dset m k v) = keys m := by
  induction m with
  | nil => simp at hk
  | cons p rest ih =>
    obtain ⟨k1, v1⟩ := p
    by_cases h : k1 = k
    · subst h
      rw [show dset ((k1, v1) :: rest) k1 v = (k1, v) :: rest from by simp [dset]]
      simp
    · rw [show dset ((k1, v1) :: rest) k v = (k1, v1) :: dset rest k v from by
        simp [dset, h]]
      simp only [keys_cons, List.mem_cons] at hk
      rcases hk with h1 | h1
      · exact absurd h1.symm h
      · simp only [keys_cons, ih h1]

theorem keys_dset_of_not_mem {α : Type} {m : List (String × α)} {k : String} (v : α)
    (hk : k ∉ keys m) : keys (dset m k v) = keys m ++ [k] := by
  induction m with
  | nil => simp [dset]
  | cons p rest ih =>
    obtain ⟨k1, v1⟩ := p
    simp only [keys_cons, List.mem_cons] at hk
    push_neg at hk
    rw [show dset ((k1, v1) :: rest) k v = (k1, v1) :: dset rest k v from by
      simp [dset, Ne.symm hk.1]]
    simp only [keys_cons, ih hk.2, List.cons_append]

theorem nodup_keys_dset {α : Type} (m : List (String × α)) (k : String) (v : α)
    (hnd : (keys m).Nodup) : (keys (dset m k v)).Nodup := by
  by_cases hk : k ∈ keys m
  · rw [keys_dset_of_mem v hk]; exact hnd
  · rw [keys_dset_of_not_mem v hk]
    simpa [List.nodup_append] using ⟨hnd, fun h => hk h⟩

theorem mem_keys_dropKey {α : Type} (m : List (String × α)) (k a : String) :
    a ∈ keys (dropKey m k) ↔ a ∈ keys m ∧ a ≠ k := by
  induction m with
  | nil => simp [dropKey]
  | cons p rest ih =>
    obtain ⟨k1, v⟩ := p
    by_cases h : k1 = k
    · subst h
      rw [show dropKey ((k1, v) :: rest) k1 = dropKey rest k1 from by simp [dropKey]]
      rw [ih]
      simp only [keys_cons, List.mem_cons]
      tauto
    · rw [show dropKey ((k1, v) :: rest) k = (k1, v) :: dropKey rest k from by
        simp [dropKey, h]]
      simp only [keys_cons, List.mem_cons, ih]
      constructor
      · rintro (rfl | ⟨h1, h2⟩)
        · exact ⟨Or.inl rfl, fun hk => h (by rw [hk])⟩
        · exact ⟨Or.inr h1, h2⟩
      · rintro ⟨rfl | h1, h2⟩
        · exact Or.inl rfl
        · exact Or.inr ⟨h1, h2⟩

theorem dget_dropKey_self {α : Type} (m : List (String × α)) (k : String) :
    dget (dropKey m k) k = none := by
  rw [dget_eq_none_iff, mem_keys_dropKey]
  simp

theorem dget_dropKey_ne {α : Type} (m : List (String × α)) (k a : String)
    (hne : a ≠ k) : dget (dropKey m k) a = dget m a := by
  induction m with
  | nil => simp [dropKey]
  | cons p rest ih =>
    obtain ⟨k1, v⟩ := p
    by_cases h : k1 = k
    · subst h
      rw [dropKey_cons, if_pos rfl, ih, dget_cons, if_neg (Ne.symm hne)]
    · rw [dropKey_cons, if_neg h, dget_cons, dget_cons, ih]

theorem dropKey_sublist {α : Type} (m : List (String × α)) (k : String) :
    (dropKey m k).Sublist m := by
  induction m with
  | nil => simp [dropKey]
  | cons p rest ih =>
    obtain ⟨k1, v⟩ := p
    by_cases h : k1 = k
    · rw [dropKey_cons, if_pos h]
      exact ih.cons (k1, v)
    · rw [dropKey_cons, if_neg h]
      exact ih.cons₂ (k1, v)

theorem nodup_keys_dropKey {α : Type} (m : List (String × α)) (k : String)
    (hnd : (keys m).Nodup) : (keys (dropKey m k)).Nodup :=
  (((dropKey_sublist m k).map Prod.fst).nodup hnd : _)

theorem dropKey_eq_of_not_mem {α : Type} {m : List (String × α)} {k : String}
    (hk : k ∉ keys m) : dropKey m k = m := by
  induction m with
  | nil => simp [dropKey]
  | cons p rest ih =>
    obtain ⟨k1, v⟩ := p
    simp only [keys, List.map_cons, List.mem_cons] at hk
    push_neg at hk
    simp [dropKey, Ne.symm hk.1, ih hk.2]

theorem dropKey_append {α : Type} (l1 l2 : List (String × α)) (k : String) :
    dropKey (l1 ++ l2) k = dropKey l1 k ++ dropKey l2 k := by
  induction l1 with
  | nil => simp [dropKey]
  | cons p rest ih =>
    obtain ⟨k1, v⟩ := p
    by_cases h : k1 = k <;> simp [dropKey, h, ih]

theorem ddel_eq_some_iff {α : Type} (m : List (String × α)) (k : String)
    (l : List (String × α)) :
    ddel m k = some l ↔ k ∈ keys m ∧ l = dropKey m k := by
  unfold ddel
  split <;> simp_all [eq_comm]

theorem ddel_isSome_iff {α : Type} (m : List (String × α)) (k : String) :
    (ddel m k).isSome ↔ k ∈ keys m := by
  unfold ddel
  split <;> simp_all

theorem dget_dropKeys {α : Type} (m : List (String × α)) (ks : List String) (a : String) :
    dget (dropKeys m ks) a = if a ∈ ks then none else dget m a := by
  induction ks generalizing m with
  | nil => simp [dropKeys]
  | cons k rest ih =>
    rw [dropKeys, ih]
    by_cases h1 : a ∈ rest
    · simp [h1]
    · by_cases h2 : a = k
      · subst h2
        simp [h1, dget_dropKey_self]
      · simp [h1, h2, dget_dropKey_ne _ _ _ h2]

theorem mem_keys_dropKeys {α : Type} (m : List (String × α)) (ks : List String)
    (a : String) : a ∈ keys (dropKeys m ks) ↔ a ∉ ks ∧ a ∈ keys m := by
  rw [← dget_isSome_iff, dget_dropKeys, ← dget_isSome_iff]
  by_cases h : a ∈ ks <;> simp [h]

theorem dropKeys_sublist {α : Type} (m : List (String × α)) (ks : List String) :
    (dropKeys m ks).Sublist m := by
  induction ks generalizing m with
  | nil => exact List.Sublist.refl m
  | cons k rest ih => exact (ih (dropKey m k)).trans (dropKey_sublist m k)

theorem mem_dropWhile_of_not {α : Type} (p : α → Bool) (l : List α) (a : α)
    (ha : a ∈ l) (hp : p a = false) : a ∈ l.dropWhile p := by
  induction l with
  | nil => simp at ha
  | cons b rest ih =>
    rcases List.mem_cons.mp ha with rfl | h1
    · rw [List.dropWhile_cons, hp]
      simp
    · rw [List.dropWhile_cons]
      by_cases hb : p b = true
      · rw [hb]
        simpa using ih h1
      · simp only [Bool.not_eq_true] at hb
        rw [hb]
        simp [h1]

/-- One full sweep: with unique tracker keys and every tracked identifier
registered, `sweepLoop` deletes from the registry exactly the keys of the
expired prefix of the tracker, keeps the remainder of the tracker
(re-inserting the first fresh entry at the front), and never raises. -/
theorem sweepLoop_spec (B T : Int) (ss : List (String × Session))
    (ex : List (String × Int)) (hnd : (keys ex).Nodup)
    (hsub : ∀ k ∈ keys ex, k ∈ keys ss) :
    sweepLoop B T ss ex =
      some (dropKeys ss (keys (ex.takeWhile (isExpired B T))),
            ex.dropWhile (isExpired B T)) := by
  induction ex generalizing ss with
  | nil => simp [sweepLoop, dropKeys]
  | cons p rest ih =>
    obtain ⟨sid, ts⟩ := p
    have hnd1 : sid ∉ keys rest ∧ (keys rest).Nodup := by simpa using hnd
    by_cases h : T - ts < B
    · have hexp : isExpired B T (sid, ts) = false := by
        simp only [isExpired, decide_eq_false_iff_not]
        omega
      have h1 : lruSet rest sid ts = rest ++ [(sid, ts)] := by
        rw [lruSet, dropKey_eq_of_not_mem hnd1.1]
      have h2 : dget (lruSet rest sid ts) sid = some ts := by
        rw [h1, dget_append, (dget_eq_none_iff rest sid).mpr hnd1.1]
        simp [dget]
      have h3 : dropKey (lruSet rest sid ts) sid = rest := by
        rw [h1, dropKey_append, dropKey_eq_of_not_mem hnd1.1]
        simp [dropKey]
      rw [show sweepLoop B T ss ((sid, ts) :: rest) =
          (lruMoveToFront (lruSet rest sid ts) sid).map (fun ex1 => (ss, ex1)) from by
        simp [sweepLoop, h]]
      rw [lruMoveToFront, h2, h3]
      simp [List.takeWhile_cons, List.dropWhile_cons, hexp, dropKeys]
    · have hexp : isExpired B T (sid, ts) = true := by
        simp only [isExpired, decide_eq_true_eq]
        omega
      have hmem : sid ∈ keys ss := hsub sid (by simp)
      have hdel : ddel ss sid = some (dropKey ss sid) := by
        simp [ddel, hmem]
      have hsub1 : ∀ k ∈ keys rest, k ∈ keys (dropKey ss sid) := by
        intro k hk
        rw [mem_keys_dropKey]
        refine ⟨hsub k (by simp [hk]), ?_⟩
        rintro rfl
        exact hnd1.1 hk
      rw [show sweepLoop B T ss ((sid, ts) :: rest) =
          match ddel ss sid with
          | none => none
          | some ss1 => sweepLoop B T ss1 rest from by simp [sweepLoop, h]]
      rw [hdel]
      show sweepLoop B T (dropKey ss sid) rest = _
      rw [ih (dropKey ss sid) hnd1.2 hsub1]
      simp [List.takeWhile_cons, List.dropWhile_cons, hexp, dropKeys]

/-- `_remove_expired_sessions` in terms of `takeWhile`/`dropWhile` on the
tracker: the expired prefix goes, the rest stays, the scalar
`_last_check_session_expire_ts` is untouched. -/
theorem remove_expired_spec (B T : Int) (st : ServerState)
    (hnd : (keys st.expire).Nodup)
    (hsub : ∀ k ∈ keys st.expire, k ∈ keys st.sessions) :
    _remove_expired_sessions B T st =
      some { st with
        sessions := dropKeys st.sessions (keys (st.expire.takeWhile (isExpired B T))),
        expire := st.expire.dropWhile (isExpired B T) } := by
  unfold _remove_expired_sessions
  rw [sweepLoop_spec B T _ _ hnd hsub]

/-- On a tracker whose timestamps are nondecreasing from the least to the
most recently active end, stopping at the first fresh entry is the same as
filtering out every expired entry: everything after the stop is fresh. -/
theorem dropWhile_eq_filter_of_sorted (B T : Int) (ex : List (String × Int))
    (hs : List.Pairwise (fun p q : String × Int => p.2 ≤ q.2) ex) :
    ex.dropWhile (isExpired B T) = ex.filter (fun p => decide (T - p.2 < B)) := by
  induction ex with
  | nil => simp
  | cons p rest ih =>
    obtain ⟨sid, ts⟩ := p
    rw [List.pairwise_cons] at hs
    by_cases h : B ≤ T - ts
    · have hexp : isExpired B T (sid, ts) = true := by
        simp [isExpired, h]
      have hf : (decide (T - (sid, ts).2 < B)) = false := by
        simp only [decide_eq_false_iff_not]
        omega
      rw [List.dropWhile_cons, hexp, List.filter_cons, hf, ih hs.2]
      simp
    · have hexp : isExpired B T (sid, ts) = false := by
        simp only [isExpired, decide_eq_false_iff_not]
        omega
      have hall : ∀ q ∈ rest, T - q.2 < B := by
        intro q hq
        have h1 := hs.1 q hq
        omega
      have hfr : rest.filter (fun p => decide (T - p.2 < B)) = rest := by
        rw [List.filter_eq_self]
        intro q hq
        simpa using hall q hq
      have ht : (decide (T - (sid, ts).2 < B)) = true := by
        simp only [decide_eq_true_eq]
        omega
      rw [List.dropWhile_cons, hexp, List.filter_cons, ht, hfr]
      simp

/-! Stage lemmas for `mainPhase`. -/

theorem pushStage_fst (req : Request) (sid : String) (sess : Session)
    (st : ServerState) :
    (pushStage req sid sess st).1 =
      if req.method = Method.post then send_client_event sess req.payload else sess := by
  by_cases h : req.method = Method.post <;> simp [pushStage, h]

theorem pushStage_state (req : Request) (sid : String) (sess : Session)
    (st : ServerState) :
    (pushStage req sid sess st).2.1 =
      if req.method = Method.post then
        { st with sessions := dset st.sessions sid (send_client_event sess req.payload) }
      else st := by
  by_cases h : req.method = Method.post <;> simp [pushStage, h]

theorem pushStage_trace (req : Request) (sid : String) (sess : Session)
    (st : ServerState) :
    (pushStage req sid sess st).2.2 =
      if req.method = Method.post then [Effect.pushEv sid req.payload] else [] := by
  by_cases h : req.method = Method.post <;> simp [pushStage, h]

theorem pushStage_lastCheck (req : Request) (sid : String) (sess : Session)
    (st : ServerState) :
    (pushStage req sid sess st).2.1.lastCheckTs = st.lastCheckTs := by
  by_cases h : req.method = Method.post <;> simp [pushStage, h]

theorem pushStage_expire (req : Request) (sid : String) (sess : Session)
    (st : ServerState) :
    (pushStage req sid sess st).2.1.expire = st.expire := by
  by_cases h : req.method = Method.post <;> simp [pushStage, h]

theorem pushStage_keys (req : Request) (sid : String) (sess : Session)
    (st : ServerState) (hsid : sid ∈ keys st.sessions) :
    keys (pushStage req sid sess st).2.1.sessions = keys st.sessions := by
  by_cases h : req.method = Method.post <;>
    simp [pushStage, h, keys_dset_of_mem _ hsid]

theorem pushStage_dget_self (req : Request) (sid : String) (sess : Session)
    (st : ServerState) (hget : dget st.sessions sid = some sess) :
    dget (pushStage req sid sess st).2.1.sessions sid =
      some (pushStage req sid sess st).1 := by
  by_cases h : req.method = Method.post <;>
    simp [pushStage, h, dget_dset_self, hget]

theorem sweepIfDue_not_due (B : Int) (env : Env) (st : ServerState)
    (h : ¬ env.now - st.lastCheckTs > REMOVE_EXPIRED_SESSIONS_INTERVAL) :
    sweepIfDue B env st = some (st, []) := by
  simp [sweepIfDue, h]

theorem sweepIfDue_due (B : Int) (env : Env) (st : ServerState)
    (hdue : env.now - st.lastCheckTs > REMOVE_EXPIRED_SESSIONS_INTERVAL)
    (hnd : (keys st.expire).Nodup)
    (hsub : ∀ k ∈ keys st.expire, k ∈ keys st.sessions) :
    sweepIfDue B env st =
      some ({ sessions :=
                dropKeys st.sessions (keys (st.expire.takeWhile (isExpired B env.now))),
              expire := st.expire.dropWhile (isExpired B env.now),
              lastCheckTs := env.now },
            [Effect.sweepRun]) := by
  unfold sweepIfDue
  rw [if_pos hdue, remove_expired_spec B env.now st hnd hsub]

theorem sweepIfDue_trace (B : Int) (env : Env) (st st2 : ServerState)
    (swTr : List Effect) (h : sweepIfDue B env st = some (st2, swTr)) :
    swTr = if env.now - st.lastCheckTs > REMOVE_EXPIRED_SESSIONS_INTERVAL
      then [Effect.sweepRun] else [] := by
  unfold sweepIfDue at h
  by_cases hdue : env.now - st.lastCheckTs > REMOVE_EXPIRED_SESSIONS_INTERVAL
  · rw [if_pos hdue] at h
    rw [if_pos hdue]
    cases hre : _remove_expired_sessions B env.now st with
    | none =>
      rw [hre] at h
      exact absurd h (by simp)
    | some sw =>
      rw [hre] at h
      simp only [Option.some.injEq, Prod.mk.injEq] at h
      exact h.2.symm
  · rw [if_neg hdue] at h
    rw [if_neg hdue]
    simp only [Option.some.injEq, Prod.mk.injEq] at h
    exact h.2.symm

theorem remove_webio_session_eq (sid : String) (st : ServerState)
    (hs : sid ∈ keys st.sessions) (he : sid ∈ keys st.expire) :
    _remove_webio_session sid st =
      some { st with sessions := dropKey st.sessions sid,
                     expire := dropKey st.expire sid } := by
  unfold _remove_webio_session
  simp [ddel, hs, he]

theorem remove_webio_session_some (sid : String) (st st3 : ServerState)
    (h : _remove_webio_session sid st = some st3) :
    sid ∈ keys st.sessions ∧ sid ∈ keys st.expire ∧
      st3 = { st with sessions := dropKey st.sessions sid,
                      expire := dropKey st.expire sid } := by
  unfold _remove_webio_session at h
  cases h1 : ddel st.sessions sid with
  | none =>
    rw [h1] at h
    exact absurd h (by simp)
  | some ss =>
    rw [h1] at h
    cases h2 : ddel st.expire sid with
    | none =>
      rw [h2] at h
      exact absurd h (by simp)
    | some ex =>
      rw [h2] at h
      simp only [Option.some.injEq] at h
      obtain ⟨hm1, he1⟩ := (ddel_eq_some_iff _ _ _).mp h1
      obtain ⟨hm2, he2⟩ := (ddel_eq_some_iff _ _ _).mp h2
      exact ⟨hm1, hm2, by rw [← h, he1, he2]⟩

theorem closeStage_not_closed (sid : String) (sh : Bool) (sess1 : Session)
    (st2 : ServerState) (h : Session.closed sess1 = false) :
    closeStage sid sh sess1 st2 =
      some (st2,
        HttpResponse.json (get_task_messages sess1) (if sh then some sid else none),
        if sh then [Effect.headerSet sid] else []) := by
  cases sh <;> simp [closeStage, h, _make_response, setSidHeader]

theorem closeStage_closed (sid : String) (sh : Bool) (sess1 : Session)
    (st2 : ServerState) (h : Session.closed sess1 = true)
    (hs : sid ∈ keys st2.sessions) (he : sid ∈ keys st2.expire) :
    closeStage sid sh sess1 st2 =
      some ({ st2 with sessions := dropKey st2.sessions sid,
                       expire := dropKey st2.expire sid },
        HttpResponse.json (get_task_messages sess1) none,
        [Effect.removeSession sid]) := by
  simp [closeStage, h, _make_response, remove_webio_session_eq sid st2 hs he]

theorem closeStage_trace (sid : String) (sh : Bool) (sess1 : Session)
    (st2 st3 : ServerState) (resp : HttpResponse) (endTr : List Effect)
    (h : closeStage sid sh sess1 st2 = some (st3, resp, endTr)) :
    endTr = if Session.closed sess1 then [Effect.removeSession sid]
      else if sh then [Effect.headerSet sid] else [] := by
  unfold closeStage at h
  by_cases hc : Session.closed sess1
  · rw [if_pos hc]
    simp only [hc, if_true] at h
    cases hr : _remove_webio_session sid st2 with
    | none =>
      rw [hr] at h
      exact absurd h (by simp)
    | some stx =>
      rw [hr] at h
      simp only [Option.some.injEq, Prod.mk.injEq] at h
      exact h.2.2.symm
  · rw [if_neg hc]
    simp only [Bool.not_eq_true] at hc
    simp only [hc, Bool.false_eq_true, if_false] at h
    cases sh <;> simp_all

theorem nodup_keys_sublist {α : Type} {m1 m2 : List (String × α)}
    (h : m1.Sublist m2) (hnd : (keys m2).Nodup) : (keys m1).Nodup :=
  (h.map Prod.fst).nodup hnd

theorem mem_keys_append_right {α : Type} {l1 l2 : List (String × α)}
    (hnd : (keys (l1 ++ l2)).Nodup) (a : String) :
    a ∈ keys l2 ↔ a ∈ keys (l1 ++ l2) ∧ a ∉ keys l1 := by
  rw [keys_append] at hnd ⊢
  rw [List.nodup_append] at hnd
  simp only [List.mem_append]
  constructor
  · intro h
    exact ⟨Or.inr h, fun h1 => hnd.2.2 h1 h⟩
  · rintro ⟨h1 | h1, h2⟩
    · exact absurd h1 h2
    · exact h1

theorem dropKey_idem {α : Type} (m : List (String × α)) (k : String) :
    dropKey (dropKey m k) k = dropKey m k := by
  apply dropKey_eq_of_not_mem
  rw [mem_keys_dropKey]
  simp

/-- The net effect of re-inserting a fresh head at the least recently
active position: `_webio_expire[sid] = active_ts` then
`move_to_end(sid, last=False)` put `(sid, ts)` back in front. -/
theorem lruReinsert_eq (rest : List (String × Int)) (sid : String) (ts : Int) :
    lruMoveToFront (lruSet rest sid ts) sid =
      some ((sid, ts) :: dropKey rest sid) := by
  have h1 : dget (lruSet rest sid ts) sid = some ts := by
    rw [lruSet, dget_append, dget_dropKey_self]
    simp [dget]
  have h2 : dropKey (lruSet rest sid ts) sid = dropKey rest sid := by
    rw [lruSet, dropKey_append, dropKey_idem]
    simp [dropKey]
  rw [lruMoveToFront, h1, h2]

theorem sweepLoop_expire_sublist (B T : Int) (ss ss2 : List (String × Session))
    (ex ex2 : List (String × Int)) (h : sweepLoop B T ss ex = some (ss2, ex2)) :
    ex2.Sublist ex := by
  induction ex generalizing ss with
  | nil =>
    simp only [sweepLoop, Option.some.injEq, Prod.mk.injEq] at h
    rw [← h.2]
  | cons p rest ih =>
    obtain ⟨sid, ts⟩ := p
    by_cases hc : T - ts < B
    · rw [show sweepLoop B T ss ((sid, ts) :: rest) =
          (lruMoveToFront (lruSet rest sid ts) sid).map (fun ex1 => (ss, ex1)) from by
        simp [sweepLoop, hc]] at h
      rw [lruReinsert_eq] at h
      simp only [Option.map_some', Option.some.injEq, Prod.mk.injEq] at h
      rw [← h.2]
      exact (dropKey_sublist rest sid).cons₂ (sid, ts)
    · rw [show sweepLoop B T ss ((sid, ts) :: rest) =
          match ddel ss sid with
          | none => none
          | some ss1 => sweepLoop B T ss1 rest from by simp [sweepLoop, hc]] at h
      cases hd : ddel ss sid with
      | none =>
        rw [hd] at h
        exact absurd h (by simp)
      | some ss1 =>
        rw [hd] at h
        exact ((ih ss1 h).trans (List.sublist_cons_self (sid, ts) rest) : _)

theorem remove_expired_expire_sublist (B T : Int) (st st2 : ServerState)
    (h : _remove_expired_sessions B T st = some st2) :
    st2.expire.Sublist st.expire := by
  unfold _remove_expired_sessions at h
  cases hs : sweepLoop B T st.sessions st.expire with
  | none =>
    rw [hs] at h
    exact absurd h (by simp)
  | some p =>
    obtain ⟨ss2, ex2⟩ := p
    rw [hs] at h
    simp only [Option.some.injEq] at h
    rw [← h]
    exact sweepLoop_expire_sublist B T st.sessions ss2 st.expire ex2 hs

theorem sweepIfDue_expire_sublist (B : Int) (env : Env) (st st2 : ServerState)
    (swTr : List Effect) (h : sweepIfDue B env st = some (st2, swTr)) :
    st2.expire.Sublist st.expire := by
  unfold sweepIfDue at h
  by_cases hdue : env.now - st.lastCheckTs > REMOVE_EXPIRED_SESSIONS_INTERVAL
  · rw [if_pos hdue] at h
    cases hre : _remove_expired_sessions B env.now st with
    | none =>
      rw [hre] at h
      exact absurd h (by simp)
    | some sw =>
      rw [hre] at h
      simp only [Option.some.injEq, Prod.mk.injEq] at h
      have : st2.expire = sw.expire := by rw [← h.1]
      rw [this]
      exact remove_expired_expire_sublist B env.now st sw hre
  · rw [if_neg hdue] at h
    simp only [Option.some.injEq, Prod.mk.injEq] at h
    rw [← h.1]

theorem sweepIfDue_paired (B : Int) (env : Env) (st st2 : ServerState)
    (swTr : List Effect) (hnd : (keys st.expire).Nodup) (hpair : pairedState st)
    (h : sweepIfDue B env st = some (st2, swTr)) :
    pairedState st2 := by
  by_cases hdue : env.now - st.lastCheckTs > REMOVE_EXPIRED_SESSIONS_INTERVAL
  · rw [sweepIfDue_due B env st hdue hnd hpair.2] at h
    simp only [Option.some.injEq, Prod.mk.injEq] at h
    obtain ⟨h1, _⟩ := h
    subst h1
    have hsplit : List.takeWhile (isExpired B env.now) st.expire ++
        List.dropWhile (isExpired B env.now) st.expire = st.expire :=
      List.takeWhile_append_dropWhile (isExpired B env.now) st.expire
    have hnd2 : (keys (List.takeWhile (isExpired B env.now) st.expire ++
        List.dropWhile (isExpired B env.now) st.expire)).Nodup := by
      rw [hsplit]
      exact hnd
    constructor
    · intro a ha
      dsimp only at ha ⊢
      rw [mem_keys_dropKeys] at ha
      rw [mem_keys_append_right hnd2 a, hsplit]
      exact ⟨hpair.1 a ha.2, ha.1⟩
    · intro a ha
      dsimp only at ha ⊢
      rw [mem_keys_dropKeys]
      rw [mem_keys_append_right hnd2 a, hsplit] at ha
      exact ⟨ha.2, hpair.2 a ha.1⟩
  · rw [sweepIfDue_not_due B env st hdue] at h
    simp only [Option.some.injEq, Prod.mk.injEq] at h
    rw [← h.1]
    exact hpair

theorem closeStage_some_state (sid : String) (sh : Bool) (sess1 : Session)
    (st2 st3 : ServerState) (resp : HttpResponse) (endTr : List Effect)
    (h : closeStage sid sh sess1 st2 = some (st3, resp, endTr)) :
    (Session.closed sess1 = false ∧ st3 = st2) ∨
    (Session.closed sess1 = true ∧ sid ∈ keys st2.sessions ∧ sid ∈ keys st2.expire ∧
      st3 = { st2 with sessions := dropKey st2.sessions sid,
                       expire := dropKey st2.expire sid }) := by
  cases hc : Session.closed sess1 with
  | false =>
    rw [closeStage_not_closed sid sh sess1 st2 hc] at h
    simp only [Option.some.injEq, Prod.mk.injEq] at h
    exact Or.inl ⟨rfl, h.1.symm⟩
  | true =>
    unfold closeStage at h
    simp only [hc, if_true] at h
    cases hr : _remove_webio_session sid st2 with
    | none =>
      rw [hr] at h
      exact absurd h (by simp)
    | some stx =>
      rw [hr] at h
      obtain ⟨hm1, hm2, heq⟩ := remove_webio_session_some sid st2 stx hr
      simp only [Option.some.injEq, Prod.mk.injEq] at h
      exact Or.inr ⟨rfl, hm1, hm2, by rw [← h.1, heq]⟩

theorem mainPhase_some_elim (B : Int) (env : Env) (req : Request) (sid : String)
    (sh : Bool) (sess : Session) (st st3 : ServerState) (resp : HttpResponse)
    (tr : List Effect)
    (h : mainPhase B env req sid sh sess st = some (st3, resp, tr)) :
    ∃ st2 swTr endTr,
      sweepIfDue B env (pushStage req sid sess st).2.1 = some (st2, swTr) ∧
      closeStage sid sh (pushStage req sid sess st).1 st2 = some (st3, resp, endTr) ∧
      tr = (pushStage req sid sess st).2.2 ++ swTr ++ [Effect.pullMsgs sid] ++ endTr := by
  unfold mainPhase at h
  cases hsw : sweepIfDue B env (pushStage req sid sess st).2.1 with
  | none =>
    rw [hsw] at h
    exact absurd h (by simp)
  | some p2 =>
    obtain ⟨st2, swTr⟩ := p2
    rw [hsw, Option.some_bind] at h
    dsimp only at h
    cases hcs : closeStage sid sh (pushStage req sid sess st).1 st2 with
    | none =>
      rw [hcs] at h
      exact absurd h (by simp)
    | some p3 =>
      obtain ⟨st3x, resp3, endTr⟩ := p3
      rw [hcs, Option.map_some'] at h
      dsimp only at h
      simp only [Option.some.injEq, Prod.mk.injEq] at h
      obtain ⟨h1, h2, h3⟩ := h
      subst h1
      subst h2
      exact ⟨st2, swTr, endTr, rfl, hcs, h3.symm⟩

theorem mainPhase_trace (B : Int) (env : Env) (req : Request) (sid : String)
    (sh : Bool) (sess : Session) (st st3 : ServerState) (resp : HttpResponse)
    (tr : List Effect)
    (h : mainPhase B env req sid sh sess st = some (st3, resp, tr)) :
    tr = (if req.method = Method.post then [Effect.pushEv sid req.payload] else [])
      ++ (if env.now - st.lastCheckTs > REMOVE_EXPIRED_SESSIONS_INTERVAL
          then [Effect.sweepRun] else [])
      ++ [Effect.pullMsgs sid]
      ++ (if Session.closed
            (if req.method = Method.post then send_client_event sess req.payload else sess)
          then [Effect.removeSession sid]
          else if sh then [Effect.headerSet sid] else []) := by
  obtain ⟨st2, swTr, endTr, hsw, hcs, htr⟩ :=
    mainPhase_some_elim B env req sid sh sess st st3 resp tr h
  rw [htr, pushStage_trace]
  rw [sweepIfDue_trace B env _ st2 swTr hsw, pushStage_lastCheck]
  rw [closeStage_trace sid sh _ st2 st3 resp endTr hcs, pushStage_fst]

theorem mainPhase_paired (B : Int) (env : Env) (req : Request) (sid : String)
    (sh : Bool) (sess : Session) (st st3 : ServerState) (resp : HttpResponse)
    (tr : List Effect) (hwf : wfState st) (hpair : pairedState st)
    (hsid : sid ∈ keys st.sessions)
    (h : mainPhase B env req sid sh sess st = some (st3, resp, tr)) :
    pairedState st3 := by
  obtain ⟨st2, swTr, endTr, hsw, hcs, htr⟩ :=
    mainPhase_some_elim B env req sid sh sess st st3 resp tr h
  have hk1 : keys (pushStage req sid sess st).2.1.sessions = keys st.sessions :=
    pushStage_keys req sid sess st hsid
  have he1 : (pushStage req sid sess st).2.1.expire = st.expire :=
    pushStage_expire req sid sess st
  have hp1 : pairedState (pushStage req sid sess st).2.1 := by
    constructor
    · intro a ha
      rw [he1]
      exact hpair.1 a (by rwa [hk1] at ha)
    · intro a ha
      rw [hk1]
      exact hpair.2 a (by rwa [he1] at ha)
  have hp2 : pairedState st2 :=
    sweepIfDue_paired B env _ st2 swTr (by rw [he1]; exact hwf.2) hp1 hsw
  rcases closeStage_some_state sid sh _ st2 st3 resp endTr hcs with
    ⟨_, h3⟩ | ⟨_, _, _, h3⟩
  · rw [h3]
    exact hp2
  · rw [h3]
    constructor
    · intro a ha
      dsimp only at ha ⊢
      rw [mem_keys_dropKey] at ha ⊢
      exact ⟨hp2.1 a ha.1, ha.2⟩
    · intro a ha
      dsimp only at ha ⊢
      rw [mem_keys_dropKey] at ha ⊢
      exact ⟨hp2.2 a ha.1, ha.2⟩

theorem mainPhase_expire_sublist (B : Int) (env : Env) (req : Request)
    (sid : String) (sh : Bool) (sess : Session) (st st3 : ServerState)
    (resp : HttpResponse) (tr : List Effect)
    (h : mainPhase B env req sid sh sess st = some (st3, resp, tr)) :
    st3.expire.Sublist st.expire := by
  obtain ⟨st2, swTr, endTr, hsw, hcs, _⟩ :=
    mainPhase_some_elim B env req sid sh sess st st3 resp tr h
  have h1 : st2.expire.Sublist (pushStage req sid sess st).2.1.expire :=
    sweepIfDue_expire_sublist B env _ st2 swTr hsw
  rw [pushStage_expire] at h1
  rcases closeStage_some_state sid sh _ st2 st3 resp endTr hcs with
    ⟨_, h3⟩ | ⟨_, _, _, h3⟩
  · rw [h3]
    exact h1
  · rw [h3]
    exact ((dropKey_sublist st2.expire sid).trans h1 : _)

/-! Lemmas about the `_webio_view` branches. -/

theorem webio_view_test (coro : Nat) (B : Int) (env : Env) (req : Request)
    (st : ServerState) (h : req.test = true) :
    _webio_view coro B env req st = some (st, HttpResponse.text "ok", []) := by
  simp [_webio_view, h]

theorem webio_view_unknown (coro : Nat) (B : Int) (env : Env) (req : Request)
    (st : ServerState) (sid : String) (ht : req.test = false)
    (hsid : reqSid req = some sid) (hmiss : dget st.sessions sid = none) :
    _webio_view coro B env req st =
      some (st, HttpResponse.json [Msg.mk "close_session" 0] none, []) := by
  simp [_webio_view, ht, hsid, hmiss]

theorem webio_view_new (coro : Nat) (B : Int) (env : Env) (req : Request)
    (st : ServerState) (ht : req.test = false) (hsid : reqSid req = none) :
    _webio_view coro B env req st =
      mainPhase B env req (random_str env.rand 24) true (newSession env coro)
        { st with
            sessions := dset st.sessions (random_str env.rand 24) (newSession env coro),
            expire := lruSet st.expire (random_str env.rand 24) env.now } := by
  simp [_webio_view, ht, hsid]

theorem webio_view_found (coro : Nat) (B : Int) (env : Env) (req : Request)
    (st : ServerState) (sid : String) (sess : Session) (ht : req.test = false)
    (hsid : reqSid req = some sid) (hget : dget st.sessions sid = some sess) :
    _webio_view coro B env req st = mainPhase B env req sid false sess st := by
  simp [_webio_view, ht, hsid, hget]

/-! Helpers about the freshly extended state of a new session. -/

theorem random_str_length (rand : Nat → Char) (n : Nat) :
    (random_str rand n).length = n := by
  simp [random_str, String.length]

theorem mem_keys_lruSet (m : List (String × Int)) (k a : String) (v : Int) :
    a ∈ keys (lruSet m k v) ↔ a = k ∨ a ∈ keys m := by
  rw [lruSet, keys_append, List.mem_append, mem_keys_dropKey]
  constructor
  · rintro (⟨h1, _⟩ | h1)
    · exact Or.inr h1
    · simp at h1
      exact Or.inl h1
  · rintro (rfl | h1)
    · simp
    · by_cases h2 : a = k
      · simp [h2]
      · exact Or.inl ⟨h1, h2⟩

theorem nodup_keys_lruSet (m : List (String × Int)) (k : String) (v : Int)
    (hnd : (keys m).Nodup) : (keys (lruSet m k v)).Nodup := by
  rw [lruSet, keys_append, List.nodup_append]
  refine ⟨nodup_keys_dropKey m k hnd, List.nodup_singleton k, ?_⟩
  intro a ha
  rw [mem_keys_dropKey] at ha
  simp [ha.2]

theorem mem_lruSet_self (m : List (String × Int)) (k : String) (v : Int) :
    (k, v) ∈ lruSet m k v := by
  rw [lruSet]
  exact List.mem_append_right _ (by simp)

theorem sorted_lruSet (m : List (String × Int)) (k : String) (v : Int)
    (hs : List.Pairwise (fun p q : String × Int => p.2 ≤ q.2) m)
    (hb : ∀ p ∈ m, p.2 ≤ v) :
    List.Pairwise (fun p q : String × Int => p.2 ≤ q.2) (lruSet m k v) := by
  rw [lruSet, List.pairwise_append]
  refine ⟨List.Pairwise.sublist (dropKey_sublist m k) hs, by simp, ?_⟩
  intro p hp q hq
  simp only [List.mem_singleton] at hq
  subst hq
  exact hb p ((dropKey_sublist m k).mem hp)

theorem extendedState_wf (st : ServerState) (sid : String) (sess : Session)
    (ts : Int) (hwf : wfState st) :
    wfState { st with sessions := dset st.sessions sid sess,
                      expire := lruSet st.expire sid ts } := by
  constructor
  · exact nodup_keys_dset st.sessions sid sess hwf.1
  · exact nodup_keys_lruSet st.expire sid ts hwf.2

theorem extendedState_paired (st : ServerState) (sid : String) (sess : Session)
    (ts : Int) (hpair : pairedState st) :
    pairedState { st with sessions := dset st.sessions sid sess,
                          expire := lruSet st.expire sid ts } := by
  constructor
  · intro a ha
    dsimp only at ha ⊢
    rw [mem_keys_dset] at ha
    rw [mem_keys_lruSet]
    rcases ha with rfl | h1
    · exact Or.inl rfl
    · exact Or.inr (hpair.1 a h1)
  · intro a ha
    dsimp only at ha ⊢
    rw [mem_keys_lruSet] at ha
    rw [mem_keys_dset]
    rcases ha with rfl | h1
    · exact Or.inl rfl
    · exact Or.inr (hpair.2 a h1)

theorem send_client_event_closedFlag (s : Session) (e : Nat) :
    (send_client_event s e).closedFlag = s.closedFlag :=
  rfl

theorem send_client_event_msgs (s : Session) (e : Nat) :
    (send_client_event s e).msgs = s.msgs :=
  rfl

/-! The claims. -/

/-- C8: a request carrying a truthy `test` query parameter is answered by
the fixed literal acknowledgment before any session processing: the state
is unchanged (no session is created), the effect trace is empty, and this
holds for every session state and environment. -/
theorem c8_test_probe (coro : Nat) (B : Int) (env : Env) (req : Request)
    (st : ServerState) (h : req.test = true) :
    _webio_view coro B env req st = some (st, HttpResponse.text "ok", []) :=
  webio_view_test coro B env req st h

/-- Witness for C8 at a concrete input; the probe also presents the
unknown identifier "x", showing independence from session state. -/
theorem c8_test_probe_witness :
    reqProbe.test = true ∧
      _webio_view 0 DEFAULT_SESSION_EXPIRE_SECONDS envEx reqProbe initialState =
        some (initialState, HttpResponse.text "ok", []) :=
  ⟨rfl, c8_test_probe 0 DEFAULT_SESSION_EXPIRE_SECONDS envEx reqProbe initialState rfl⟩

/-- C2 counterexample: a request that presents an identifier not in the
registry but also carries a truthy `test` parameter is answered by the
literal acknowledgment, not by a single `close_session` message, so the
claim fails as stated for such requests. -/
theorem c2_counterexample :
    reqSid reqProbe = some "x" ∧
    dget initialState.sessions "x" = none ∧
    _webio_view 0 DEFAULT_SESSION_EXPIRE_SECONDS envEx reqProbe initialState =
      some (initialState, HttpResponse.text "ok", []) ∧
    HttpResponse.text "ok" ≠ HttpResponse.json [Msg.mk "close_session" 0] none := by
  refine ⟨rfl, rfl, rfl, ?_⟩
  simp

/-- C2 (amended: restricted to requests without the test query
parameter): a request presenting an identifier that is not in the
registry is answered immediately by exactly one `close_session` message;
the state is returned unchanged (no session created or mutated) and the
effect trace is empty (no push, no sweep, no pull). -/
theorem c2_unknown_session (coro : Nat) (B : Int) (env : Env) (req : Request)
    (st : ServerState) (sid : String) (ht : req.test = false)
    (hsid : reqSid req = some sid) (hmiss : dget st.sessions sid = none) :
    _webio_view coro B env req st =
      some (st, HttpResponse.json [Msg.mk "close_session" 0] none, []) :=
  webio_view_unknown coro B env req st sid ht hsid hmiss

/-- Witness for the amended C2 at a concrete input. -/
theorem c2_unknown_session_witness :
    (reqPoll "ghost").test = false ∧
    reqSid (reqPoll "ghost") = some "ghost" ∧
    dget initialState.sessions "ghost" = none ∧
    _webio_view 0 DEFAULT_SESSION_EXPIRE_SECONDS envEx (reqPoll "ghost") initialState =
      some (initialState, HttpResponse.json [Msg.mk "close_session" 0] none, []) :=
  ⟨rfl, rfl, rfl,
    c2_unknown_session 0 DEFAULT_SESSION_EXPIRE_SECONDS envEx (reqPoll "ghost")
      initialState "ghost" rfl rfl rfl⟩

/-- C5: removal is not idempotent in the code.  Removing the only
session "s" once empties registry and tracker; invoking
`_remove_webio_session "s"` again on that state raises `KeyError`
(modelled as `none`) instead of being a no-op that leaves the state as
after one removal. -/
theorem c5_remove_twice_raises :
    _remove_webio_session "s" stOne =
      some { sessions := [], expire := [], lastCheckTs := 1000 } ∧
    _remove_webio_session "s"
        { sessions := [], expire := [], lastCheckTs := 1000 } = none ∧
    (none : Option ServerState) ≠
      some { sessions := [], expire := [], lastCheckTs := 1000 } := by
  refine ⟨?_, ?_, ?_⟩ <;> decide

/-- C6: the code never refreshes the expiry record of an existing
session.  A GET touching session "s" (tracker entry ("s", 990), current
time 1000, sweep not due) leaves the tracker exactly `[("s", 990)]`:
the timestamp is not refreshed to 1000 and the record is not rewritten
at the most-recently-active position, although the tracker's own comment
calls it the last active timestamp. -/
theorem c6_no_touch_on_request :
    ((_webio_view 0 DEFAULT_SESSION_EXPIRE_SECONDS envEx (reqPoll "s") stOne).map
      (fun out => out.1.expire)) = some [("s", 990)] ∧
    [("s", (990 : Int))] ≠ [("s", (1000 : Int))] := by
  refine ⟨?_, ?_⟩ <;> decide

/-- C1: the pairing invariant.  On any state whose dictionaries are
well formed and paired (an expiry record exists iff a live registry
entry exists), every completed request-handling step — session creation,
expiry sweep and closed-session removal included — yields a state that
is again paired. -/
theorem c1_pairing_invariant (coro : Nat) (B : Int) (env : Env) (req : Request)
    (st st3 : ServerState) (resp : HttpResponse) (tr : List Effect)
    (hwf : wfState st) (hpair : pairedState st)
    (h : _webio_view coro B env req st = some (st3, resp, tr)) :
    pairedState st3 := by
  by_cases ht : req.test = true
  · rw [webio_view_test coro B env req st ht] at h
    simp only [Option.some.injEq, Prod.mk.injEq] at h
    rw [← h.1]
    exact hpair
  · simp only [Bool.not_eq_true] at ht
    cases hsid : reqSid req with
    | none =>
      rw [webio_view_new coro B env req st ht hsid] at h
      refine mainPhase_paired B env req (random_str env.rand 24) true
        (newSession env coro) _ st3 resp tr ?_ ?_ ?_ h
      · exact extendedState_wf st _ _ _ hwf
      · exact extendedState_paired st _ _ _ hpair
      · dsimp only
        exact mem_keys_dset_self st.sessions _ _
    | some sid =>
      cases hget : dget st.sessions sid with
      | none =>
        rw [webio_view_unknown coro B env req st sid ht hsid hget] at h
        simp only [Option.some.injEq, Prod.mk.injEq] at h
        rw [← h.1]
        exact hpair
      | some sess =>
        rw [webio_view_found coro B env req st sid sess ht hsid hget] at h
        refine mainPhase_paired B env req sid false sess st st3 resp tr hwf hpair ?_ h
        rw [← dget_isSome_iff, hget]
        rfl

/-- Witness for C1 at a concrete input: a fresh GET on the empty state,
which creates a session and runs a due sweep. -/
theorem c1_pairing_invariant_witness :
    wfState initialState ∧ pairedState initialState ∧
      pairedState
        { sessions := [(sidA,
            { kind := SessionKind.threadBased, entry := 0, pushed := [],
              msgs := [], closedFlag := false })],
          expire := [(sidA, 1000)], lastCheckTs := 1000 } :=
  ⟨by decide, by decide,
    c1_pairing_invariant 0 DEFAULT_SESSION_EXPIRE_SECONDS envEx reqFresh initialState
      { sessions := [(sidA,
          { kind := SessionKind.threadBased, entry := 0, pushed := [],
            msgs := [], closedFlag := false })],
        expire := [(sidA, 1000)], lastCheckTs := 1000 }
      (HttpResponse.json [] (some sidA))
      [Effect.sweepRun, Effect.pullMsgs sidA, Effect.headerSet sidA]
      (by decide) (by decide) (by decide)⟩

/-- C4: expiry-sweep monotonicity and early stop.  On a well-formed
paired tracker whose timestamps are nondecreasing from the least to the
most recently active end, the sweep at time `T` with budget `B` never
raises, removes exactly the entries with `T - ti >= B` (equivalently the
maximal expired prefix, as it stops at the first fresh entry) from both
the tracker and the registry, and leaves every fresher entry and the
last-sweep scalar untouched. -/
theorem c4_sweep_exact (B T : Int) (st : ServerState)
    (hnd : (keys st.expire).Nodup)
    (hsub : ∀ k ∈ keys st.expire, k ∈ keys st.sessions)
    (hsorted : List.Pairwise (fun p q : String × Int => p.2 ≤ q.2) st.expire) :
    ∃ st2, _remove_expired_sessions B T st = some st2 ∧
      st2.expire = st.expire.dropWhile (isExpired B T) ∧
      st2.expire = st.expire.filter (fun p => decide (T - p.2 < B)) ∧
      (∀ k, dget st2.sessions k =
        if k ∈ keys (st.expire.takeWhile (isExpired B T)) then none
        else dget st.sessions k) ∧
      st2.lastCheckTs = st.lastCheckTs := by
  refine ⟨_, remove_expired_spec B T st hnd hsub, rfl, ?_, ?_, rfl⟩
  · dsimp only
    exact dropWhile_eq_filter_of_sorted B T st.expire hsorted
  · intro k
    dsimp only
    exact dget_dropKeys st.sessions _ k

/-- Witness for C4 at a concrete input: sessions "a", "b" (expired) and
"c" (fresh) with budget 100 at time 1000. -/
theorem c4_sweep_exact_witness :
    (keys stSweep.expire).Nodup ∧
    (∀ k ∈ keys stSweep.expire, k ∈ keys stSweep.sessions) ∧
    List.Pairwise (fun p q : String × Int => p.2 ≤ q.2) stSweep.expire ∧
    (∃ st2, _remove_expired_sessions 100 1000 stSweep = some st2 ∧
      st2.expire = stSweep.expire.dropWhile (isExpired 100 1000) ∧
      st2.expire = stSweep.expire.filter (fun p => decide (1000 - p.2 < 100)) ∧
      (∀ k, dget st2.sessions k =
        if k ∈ keys (stSweep.expire.takeWhile (isExpired 100 1000)) then none
        else dget stSweep.sessions k) ∧
      st2.lastCheckTs = stSweep.lastCheckTs) :=
  ⟨by decide, by decide, by decide,
    c4_sweep_exact 100 1000 stSweep (by decide) (by decide) (by decide)⟩

/-- C9: the tracker's timestamps are nondecreasing from the least to the
most recently active end, and every completed request preserves this
ordering, given clock monotonicity (the current time is at least every
stored timestamp): creation appends the current time at the
most-recent end, the sweep drops an expired prefix re-inserting the
first fresh entry in place, and removal drops an entry. -/
theorem c9_expire_sorted (coro : Nat) (B : Int) (env : Env) (req : Request)
    (st st3 : ServerState) (resp : HttpResponse) (tr : List Effect)
    (hsorted : List.Pairwise (fun p q : String × Int => p.2 ≤ q.2) st.expire)
    (hbound : ∀ p ∈ st.expire, p.2 ≤ env.now)
    (h : _webio_view coro B env req st = some (st3, resp, tr)) :
    List.Pairwise (fun p q : String × Int => p.2 ≤ q.2) st3.expire := by
  by_cases ht : req.test = true
  · rw [webio_view_test coro B env req st ht] at h
    simp only [Option.some.injEq, Prod.mk.injEq] at h
    rw [← h.1]
    exact hsorted
  · simp only [Bool.not_eq_true] at ht
    cases hsid : reqSid req with
    | none =>
      rw [webio_view_new coro B env req st ht hsid] at h
      have hsl := mainPhase_expire_sublist B env req _ true _ _ st3 resp tr h
      have hs1 : List.Pairwise (fun p q : String × Int => p.2 ≤ q.2)
          (lruSet st.expire (random_str env.rand 24) env.now) :=
        sorted_lruSet st.expire _ env.now hsorted hbound
      exact List.Pairwise.sublist hsl hs1
    | some sid =>
      cases hget : dget st.sessions sid with
      | none =>
        rw [webio_view_unknown coro B env req st sid ht hsid hget] at h
        simp only [Option.some.injEq, Prod.mk.injEq] at h
        rw [← h.1]
        exact hsorted
      | some sess =>
        rw [webio_view_found coro B env req st sid sess ht hsid hget] at h
        exact List.Pairwise.sublist
          (mainPhase_expire_sublist B env req sid false sess st st3 resp tr h) hsorted

/-- Witness for C9 at a concrete input: a fresh GET on the three-session
state with budget 100 at time 1000; the sweep drops "a" and "b", keeps
"c", and the new identifier is appended with the current time. -/
theorem c9_expire_sorted_witness :
    List.Pairwise (fun p q : String × Int => p.2 ≤ q.2) stSweep.expire ∧
    (∀ p ∈ stSweep.expire, p.2 ≤ envEx.now) ∧
    List.Pairwise (fun p q : String × Int => p.2 ≤ q.2)
      ([("c", 950), (sidA, 1000)] : List (String × Int)) :=
  ⟨by decide, by decide,
    c9_expire_sorted 0 100 envEx reqFresh stSweep
      { sessions := [("c", sessEx),
          (sidA,
            { kind := SessionKind.threadBased, entry := 0, pushed := [],
              msgs := [], closedFlag := false })],
        expire := [("c", 950), (sidA, 1000)], lastCheckTs := 1000 }
      (HttpResponse.json [] (some sidA))
      [Effect.sweepRun, Effect.pullMsgs sidA, Effect.headerSet sidA]
      (by decide) (by decide) (by decide)⟩

theorem pushStage_fst_msgs (req : Request) (sid : String) (sess : Session)
    (st : ServerState) : (pushStage req sid sess st).1.msgs = sess.msgs := by
  by_cases h : req.method = Method.post <;> simp [pushStage, h, send_client_event]

theorem pushStage_fst_entry (req : Request) (sid : String) (sess : Session)
    (st : ServerState) : (pushStage req sid sess st).1.entry = sess.entry := by
  by_cases h : req.method = Method.post <;> simp [pushStage, h, send_client_event]

theorem pushStage_fst_closedFlag (req : Request) (sid : String) (sess : Session)
    (st : ServerState) : (pushStage req sid sess st).1.closedFlag = sess.closedFlag := by
  by_cases h : req.method = Method.post <;> simp [pushStage, h, send_client_event]

theorem newSession_entry (env : Env) (coro : Nat) :
    (newSession env coro).entry = coro := by
  by_cases h : env.useCoroutine <;> simp [newSession, h]

theorem newSession_msgs (env : Env) (coro : Nat) :
    (newSession env coro).msgs = env.newMsgs := by
  by_cases h : env.useCoroutine <;> simp [newSession, h]

theorem newSession_closedFlag (env : Env) (coro : Nat) :
    (newSession env coro).closedFlag = env.newClosed := by
  by_cases h : env.useCoroutine <;> simp [newSession, h]

/-- A session whose tracker entry carries the current timestamp survives
the opportunistic sweep (for a positive idle budget): it is neither
evicted from the registry nor dropped from the tracker. -/
theorem sweepIfDue_keep (B : Int) (env : Env) (st1 : ServerState) (sid : String)
    (sess1 : Session) (hB : 0 < B)
    (hnd : (keys st1.expire).Nodup)
    (hsub : ∀ k ∈ keys st1.expire, k ∈ keys st1.sessions)
    (hget : dget st1.sessions sid = some sess1)
    (hexp : (sid, env.now) ∈ st1.expire) :
    ∃ st2 swTr, sweepIfDue B env st1 = some (st2, swTr) ∧
      dget st2.sessions sid = some sess1 ∧
      (sid, env.now) ∈ st2.expire ∧
      sid ∈ keys st2.sessions ∧ sid ∈ keys st2.expire := by
  have hfreshEntry : isExpired B env.now (sid, env.now) = false := by
    simp only [isExpired, decide_eq_false_iff_not]
    omega
  by_cases hdue : env.now - st1.lastCheckTs > REMOVE_EXPIRED_SESSIONS_INTERVAL
  · have hnotin : sid ∉ keys (st1.expire.takeWhile (isExpired B env.now)) := by
      intro hmem
      obtain ⟨ts, hts⟩ := (mem_keys_iff _ sid).mp hmem
      have h1 : (sid, ts) ∈ st1.expire := (List.takeWhile_sublist _).mem hts
      have h2 : isExpired B env.now (sid, ts) = true := List.mem_takeWhile_imp hts
      have h3 : ts = env.now := by
        have e1 := dget_eq_of_mem hnd h1
        have e2 := dget_eq_of_mem hnd hexp
        rw [e1] at e2
        exact Option.some.inj e2
      rw [h3] at h2
      rw [hfreshEntry] at h2
      exact absurd h2 (by simp)
    have hget2 : dget (dropKeys st1.sessions
        (keys (st1.expire.takeWhile (isExpired B env.now)))) sid = some sess1 := by
      rw [dget_dropKeys, if_neg hnotin]
      exact hget
    have hexp2 : (sid, env.now) ∈ st1.expire.dropWhile (isExpired B env.now) :=
      mem_dropWhile_of_not _ _ _ hexp hfreshEntry
    refine ⟨_, _, sweepIfDue_due B env st1 hdue hnd hsub, ?_, ?_, ?_, ?_⟩
    · exact hget2
    · exact hexp2
    · dsimp only
      rw [← dget_isSome_iff, hget2]
      rfl
    · dsimp only
      exact (mem_keys_iff _ sid).mpr ⟨env.now, hexp2⟩
  · refine ⟨st1, [], sweepIfDue_not_due B env st1 hdue, hget, hexp, ?_, ?_⟩
    · rw [← dget_isSome_iff, hget]
      rfl
    · exact (mem_keys_iff _ sid).mpr ⟨env.now, hexp⟩

/-- `mainPhase` with `set_header` on a session that is registered under a
tracker entry carrying the current timestamp and stays open: it
completes, the response carries the session's messages and the
identifier header, and the session survives in both structures with its
expiry record intact. -/
theorem mainPhase_open_keep (B : Int) (env : Env) (req : Request) (sid : String)
    (sess : Session) (stE : ServerState) (hB : 0 < B)
    (hndE : (keys stE.expire).Nodup)
    (hsubE : ∀ k ∈ keys stE.expire, k ∈ keys stE.sessions)
    (hget0 : dget stE.sessions sid = some sess)
    (hexpE : (sid, env.now) ∈ stE.expire)
    (hopen : sess.closedFlag = false) :
    ∃ st3 tr sess1,
      mainPhase B env req sid true sess stE
        = some (st3, HttpResponse.json sess.msgs (some sid), tr) ∧
      dget st3.sessions sid = some sess1 ∧
      sess1.entry = sess.entry ∧
      sess1.msgs = sess.msgs ∧
      (sid, env.now) ∈ st3.expire := by
  have hmemE : sid ∈ keys stE.sessions := by
    rw [← dget_isSome_iff, hget0]
    rfl
  obtain ⟨st2, swTr, hsw, hget2, hexp2, hmem2s, hmem2e⟩ :=
    sweepIfDue_keep B env (pushStage req sid sess stE).2.1 sid
      (pushStage req sid sess stE).1 hB
      (by rw [pushStage_expire]
          exact hndE)
      (by intro k hk
          rw [pushStage_expire] at hk
          rw [pushStage_keys req sid sess stE hmemE]
          exact hsubE k hk)
      (pushStage_dget_self req sid sess stE hget0)
      (by rw [pushStage_expire]
          exact hexpE)
  have hclosed : Session.closed (pushStage req sid sess stE).1 = false := by
    unfold Session.closed
    rw [pushStage_fst_closedFlag]
    exact hopen
  have hcs := closeStage_not_closed sid true (pushStage req sid sess stE).1 st2 hclosed
  have hmain : mainPhase B env req sid true sess stE =
      some (st2, HttpResponse.json sess.msgs (some sid),
        (pushStage req sid sess stE).2.2 ++ swTr ++ [Effect.pullMsgs sid]
          ++ [Effect.headerSet sid]) := by
    unfold mainPhase
    rw [hsw, Option.some_bind]
    dsimp only
    rw [hcs, Option.map_some']
    simp [get_task_messages, pushStage_fst_msgs]
  exact ⟨st2,
    (pushStage req sid sess stE).2.2 ++ swTr ++ [Effect.pullMsgs sid]
      ++ [Effect.headerSet sid],
    (pushStage req sid sess stE).1, hmain, hget2,
    pushStage_fst_entry req sid sess stE, pushStage_fst_msgs req sid sess stE, hexp2⟩

/-- `mainPhase` with `set_header` on a registered current-timestamp
session that reports itself closed after the pull: it completes, the
session is removed from registry and tracker in the same request, and
the response carries no `webio-session-id` header. -/
theorem mainPhase_closed_removes (B : Int) (env : Env) (req : Request) (sid : String)
    (sess : Session) (stE : ServerState) (hB : 0 < B)
    (hndE : (keys stE.expire).Nodup)
    (hsubE : ∀ k ∈ keys stE.expire, k ∈ keys stE.sessions)
    (hget0 : dget stE.sessions sid = some sess)
    (hexpE : (sid, env.now) ∈ stE.expire)
    (hclosed : sess.closedFlag = true) :
    ∃ st3 tr,
      mainPhase B env req sid true sess stE
        = some (st3, HttpResponse.json sess.msgs none, tr) ∧
      sid ∉ keys st3.sessions ∧
      sid ∉ keys st3.expire := by
  have hmemE : sid ∈ keys stE.sessions := by
    rw [← dget_isSome_iff, hget0]
    rfl
  obtain ⟨st2, swTr, hsw, hget2, hexp2, hmem2s, hmem2e⟩ :=
    sweepIfDue_keep B env (pushStage req sid sess stE).2.1 sid
      (pushStage req sid sess stE).1 hB
      (by rw [pushStage_expire]
          exact hndE)
      (by intro k hk
          rw [pushStage_expire] at hk
          rw [pushStage_keys req sid sess stE hmemE]
          exact hsubE k hk)
      (pushStage_dget_self req sid sess stE hget0)
      (by rw [pushStage_expire]
          exact hexpE)
  have hclosedB : Session.closed (pushStage req sid sess stE).1 = true := by
    unfold Session.closed
    rw [pushStage_fst_closedFlag]
    exact hclosed
  have hcs := closeStage_closed sid true (pushStage req sid sess stE).1 st2
    hclosedB hmem2s hmem2e
  have hmain : mainPhase B env req sid true sess stE =
      some ({ st2 with sessions := dropKey st2.sessions sid,
                       expire := dropKey st2.expire sid },
        HttpResponse.json sess.msgs none,
        (pushStage req sid sess stE).2.2 ++ swTr ++ [Effect.pullMsgs sid]
          ++ [Effect.removeSession sid]) := by
    unfold mainPhase
    rw [hsw, Option.some_bind]
    dsimp only
    rw [hcs, Option.map_some']
    simp [get_task_messages, pushStage_fst_msgs]
  refine ⟨_, _, hmain, ?_, ?_⟩
  · dsimp only
    rw [mem_keys_dropKey]
    simp
  · dsimp only
    rw [mem_keys_dropKey]
    simp

theorem mem_four_chunks {x : Effect} {A B C D : List Effect}
    (hmem : x ∈ A ++ B ++ C ++ D) : x ∈ A ∨ x ∈ B ∨ x ∈ C ∨ x ∈ D := by
  rcases List.mem_append.mp hmem with h | h
  · rcases List.mem_append.mp h with h1 | h1
    · rcases List.mem_append.mp h1 with h2 | h2
      · exact Or.inl h2
      · exact Or.inr (Or.inl h2)
    · exact Or.inr (Or.inr (Or.inl h1))
  · exact Or.inr (Or.inr (Or.inr h))

theorem mem_ite_singleton_elim {x y : Effect} {c : Prop} [Decidable c]
    (h : x ∈ (if c then [y] else [])) : c ∧ x = y := by
  revert h
  split
  next hc =>
    intro h
    exact ⟨hc, by simpa using h⟩
  next hc =>
    intro h
    simp at h

theorem mem_end_chunk_elim {x : Effect} {b : Bool} {c : Prop} [Decidable c]
    {y z : Effect}
    (h : x ∈ (if b then [y] else if c then [z] else [])) : x = y ∨ x = z := by
  revert h
  split
  · intro h
    exact Or.inl (by simpa using h)
  · split
    · intro h
      exact Or.inr (by simpa using h)
    · intro h
      simp at h

theorem trace_get_no_push (sid : String) (payload : Nat) (c1 : Prop) [Decidable c1]
    (b : Bool) (c2 : Prop) [Decidable c2] (cm : Prop) [Decidable cm] (hcm : ¬ cm)
    (s : String) (e : Nat) :
    Effect.pushEv s e ∉
      ((if cm then [Effect.pushEv sid payload] else [])
        ++ (if c1 then [Effect.sweepRun] else []) ++ [Effect.pullMsgs sid]
        ++ (if b then [Effect.removeSession sid]
            else if c2 then [Effect.headerSet sid] else [])) := by
  intro hmem
  rcases mem_four_chunks hmem with h1 | h1 | h1 | h1
  · exact hcm (mem_ite_singleton_elim h1).1
  · exact absurd (mem_ite_singleton_elim h1).2 (by simp)
  · simp at h1
  · rcases mem_end_chunk_elim h1 with he | he <;> simp at he

theorem trace_post_split (sid : String) (payload : Nat) (c1 : Prop) [Decidable c1]
    (b : Bool) (c2 : Prop) [Decidable c2] (cm : Prop) [Decidable cm] (hcm : cm) :
    ∃ l1 l2,
      ((if cm then [Effect.pushEv sid payload] else [])
        ++ (if c1 then [Effect.sweepRun] else []) ++ [Effect.pullMsgs sid]
        ++ (if b then [Effect.removeSession sid]
            else if c2 then [Effect.headerSet sid] else []))
        = l1 ++ Effect.pullMsgs sid :: l2 ∧ Effect.pushEv sid payload ∈ l1 := by
  refine ⟨(if cm then [Effect.pushEv sid payload] else [])
      ++ (if c1 then [Effect.sweepRun] else []),
    (if b then [Effect.removeSession sid]
      else if c2 then [Effect.headerSet sid] else []), ?_, ?_⟩
  · simp [List.append_assoc]
  · exact List.mem_append_left _ (by simp [hcm])

/-- C3: strict side-effect order.  For every completed non-early-return
request (no test parameter; a presented identifier must be registered),
the trace is exactly: the push (iff the request is a POST, carrying its
payload) then the sweep (iff the interval has elapsed) then the pull,
then either the closed-removal or the header attachment (the latter only
for identifier-less requests).  In particular a POST's payload is pushed
into the resolved session strictly before the pull of the same request,
and a pure GET poll performs no push. -/
theorem c3_effect_order (coro : Nat) (B : Int) (env : Env) (req : Request)
    (st st3 : ServerState) (resp : HttpResponse) (tr : List Effect)
    (ht : req.test = false)
    (hknown : ∀ s, reqSid req = some s → (dget st.sessions s).isSome)
    (h : _webio_view coro B env req st = some (st3, resp, tr)) :
    ∃ sid sess,
      tr = (if req.method = Method.post then [Effect.pushEv sid req.payload] else [])
        ++ (if env.now - st.lastCheckTs > REMOVE_EXPIRED_SESSIONS_INTERVAL
            then [Effect.sweepRun] else [])
        ++ [Effect.pullMsgs sid]
        ++ (if Session.closed
              (if req.method = Method.post then send_client_event sess req.payload
               else sess)
            then [Effect.removeSession sid]
            else if reqSid req = none then [Effect.headerSet sid] else []) ∧
      (req.method = Method.get → ∀ s e, Effect.pushEv s e ∉ tr) ∧
      (req.method = Method.post →
        ∃ l1 l2, tr = l1 ++ Effect.pullMsgs sid :: l2 ∧
          Effect.pushEv sid req.payload ∈ l1) := by
  cases hsid : reqSid req with
  | none =>
    rw [webio_view_new coro B env req st ht hsid] at h
    have htr := mainPhase_trace B env req (random_str env.rand 24) true
      (newSession env coro) _ st3 resp tr h
    refine ⟨random_str env.rand 24, newSession env coro, ?_, ?_, ?_⟩
    · rw [htr]
      simp [hsid]
    · intro hm s e hmem
      rw [htr] at hmem
      exact trace_get_no_push _ _ _ _ _ _ (by simp [hm]) s e hmem
    · intro hm
      rw [htr]
      exact trace_post_split _ _ _ _ _ _ hm
  | some sid =>
    cases hget : dget st.sessions sid with
    | none =>
      have h1 := hknown sid hsid
      rw [hget] at h1
      simp at h1
    | some sess =>
      rw [webio_view_found coro B env req st sid sess ht hsid hget] at h
      have htr := mainPhase_trace B env req sid false sess st st3 resp tr h
      refine ⟨sid, sess, ?_, ?_, ?_⟩
      · rw [htr]
        simp [hsid]
      · intro hm s e hmem
        rw [htr] at hmem
        exact trace_get_no_push _ _ _ _ _ _ (by simp [hm]) s e hmem
      · intro hm
        rw [htr]
        exact trace_post_split _ _ _ _ _ _ hm

/-- C7 counterexample: when the freshly created session reports itself
closed after the first pull (envClosing), the identifier-less GET is
answered WITHOUT the webio-session-id header, so the response does not
carry the generated identifier back as the claim states. -/
theorem c7_counterexample :
    reqFresh.test = false ∧ reqSid reqFresh = none ∧
    (_webio_view 0 DEFAULT_SESSION_EXPIRE_SECONDS envClosing reqFresh initialState).map
        (fun out => out.2.1) = some (HttpResponse.json [Msg.mk "text" 0] none) ∧
    HttpResponse.json [Msg.mk "text" 0] none ≠
      HttpResponse.json [Msg.mk "text" 0] (some sidA) := by
  refine ⟨rfl, rfl, ?_, ?_⟩ <;> decide

/-- C7 (amended: the identifier header is attached only when the new
session does not report itself closed after the first pull; the
generated identifier is assumed fresh — the entropy assumption the spec
flags — and the idle budget positive): a request with no test parameter
and no identifier generates the 24-character identifier, registers a new
session bound to the caller-supplied entry point under it, seeds its
expiry record with the current time, and the response delivers the new
session's messages with the identifier in the webio-session-id
header. -/
theorem c7_new_session (coro : Nat) (B : Int) (env : Env) (req : Request)
    (st : ServerState) (hB : 0 < B) (hwf : wfState st) (hpair : pairedState st)
    (ht : req.test = false) (hsid : reqSid req = none)
    ( _hfresh : random_str env.rand 24 ∉ keys st.sessions)
    (hopen : env.newClosed = false) :
    ∃ st3 tr sess1,
      _webio_view coro B env req st =
        some (st3,
          HttpResponse.json env.newMsgs (some (random_str env.rand 24)), tr) ∧
      (random_str env.rand 24).length = 24 ∧
      dget st3.sessions (random_str env.rand 24) = some sess1 ∧
      sess1.entry = coro ∧
      sess1.msgs = env.newMsgs ∧
      (random_str env.rand 24, env.now) ∈ st3.expire := by
  rw [webio_view_new coro B env req st ht hsid]
  obtain ⟨st3, tr, sess1, hmain, hget3, hentry, hmsgs, hexp3⟩ :=
    mainPhase_open_keep B env req (random_str env.rand 24) (newSession env coro)
      { st with
          sessions := dset st.sessions (random_str env.rand 24) (newSession env coro),
          expire := lruSet st.expire (random_str env.rand 24) env.now }
      hB
      (nodup_keys_lruSet st.expire (random_str env.rand 24) env.now hwf.2)
      (extendedState_paired st (random_str env.rand 24) (newSession env coro)
        env.now hpair).2
      (dget_dset_self st.sessions (random_str env.rand 24) (newSession env coro))
      (mem_lruSet_self st.expire (random_str env.rand 24) env.now)
      (by rw [newSession_closedFlag]
          exact hopen)
  rw [newSession_msgs] at hmain
  rw [newSession_entry] at hentry
  rw [newSession_msgs] at hmsgs
  exact ⟨st3, tr, sess1, hmain, random_str_length env.rand 24, hget3, hentry,
    hmsgs, hexp3⟩

/-- Witness for the amended C7: a fresh GET on the empty state with an
environment whose new session stays open. -/
theorem c7_new_session_witness :
    (0 : Int) < DEFAULT_SESSION_EXPIRE_SECONDS ∧
    wfState initialState ∧ pairedState initialState ∧
    reqFresh.test = false ∧ reqSid reqFresh = none ∧
    random_str envEx.rand 24 ∉ keys initialState.sessions ∧
    envEx.newClosed = false ∧
    (∃ st3 tr sess1,
      _webio_view 0 DEFAULT_SESSION_EXPIRE_SECONDS envEx reqFresh initialState =
        some (st3,
          HttpResponse.json envEx.newMsgs (some (random_str envEx.rand 24)), tr) ∧
      (random_str envEx.rand 24).length = 24 ∧
      dget st3.sessions (random_str envEx.rand 24) = some sess1 ∧
      sess1.entry = 0 ∧
      sess1.msgs = envEx.newMsgs ∧
      (random_str envEx.rand 24, envEx.now) ∈ st3.expire) :=
  ⟨by decide, by decide, by decide, rfl, rfl, by decide, rfl,
    c7_new_session 0 DEFAULT_SESSION_EXPIRE_SECONDS envEx reqFresh initialState
      (by decide) (by decide) (by decide) rfl rfl (by decide) rfl⟩

/-- C10: if a newly created session (request with no identifier and no
test parameter) already reports itself closed after the first pull, it
is removed from registry and tracker within the same request and the
response does not carry the webio-session-id header, so the client never
receives an identifier for that session; the header is attached only on
the branch where the new session survives. -/
theorem c10_stillborn_new_session (coro : Nat) (B : Int) (env : Env) (req : Request)
    (st : ServerState) (hB : 0 < B) (hwf : wfState st) (hpair : pairedState st)
    (ht : req.test = false) (hsid : reqSid req = none)
    (hclosed : env.newClosed = true) :
    ∃ st3 tr,
      _webio_view coro B env req st =
        some (st3, HttpResponse.json env.newMsgs none, tr) ∧
      random_str env.rand 24 ∉ keys st3.sessions ∧
      random_str env.rand 24 ∉ keys st3.expire := by
  rw [webio_view_new coro B env req st ht hsid]
  obtain ⟨st3, tr, hmain, hnos, hnoe⟩ :=
    mainPhase_closed_removes B env req (random_str env.rand 24) (newSession env coro)
      { st with
          sessions := dset st.sessions (random_str env.rand 24) (newSession env coro),
          expire := lruSet st.expire (random_str env.rand 24) env.now }
      hB
      (nodup_keys_lruSet st.expire (random_str env.rand 24) env.now hwf.2)
      (extendedState_paired st (random_str env.rand 24) (newSession env coro)
        env.now hpair).2
      (dget_dset_self st.sessions (random_str env.rand 24) (newSession env coro))
      (mem_lruSet_self st.expire (random_str env.rand 24) env.now)
      (by rw [newSession_closedFlag]
          exact hclosed)
  rw [newSession_msgs] at hmain
  exact ⟨st3, tr, hmain, hnos, hnoe⟩

/-- Witness for C10: a fresh GET on the empty state with an environment
whose new session closes immediately; the identifier never reaches the
client. -/
theorem c10_stillborn_new_session_witness :
    (0 : Int) < DEFAULT_SESSION_EXPIRE_SECONDS ∧
    wfState initialState ∧ pairedState initialState ∧
    reqFresh.test = false ∧ reqSid reqFresh = none ∧
    envClosing.newClosed = true ∧
    (∃ st3 tr,
      _webio_view 0 DEFAULT_SESSION_EXPIRE_SECONDS envClosing reqFresh initialState =
        some (st3, HttpResponse.json envClosing.newMsgs none, tr) ∧
      random_str envClosing.rand 24 ∉ keys st3.sessions ∧
      random_str envClosing.rand 24 ∉ keys st3.expire) :=
  ⟨by decide, by decide, by decide, rfl, rfl, rfl,
    c10_stillborn_new_session 0 DEFAULT_SESSION_EXPIRE_SECONDS envClosing reqFresh
      initialState (by decide) (by decide) (by decide) rfl rfl rfl⟩

/-- Witness for C3 at a concrete input: a POST with payload 5 to the
registered session "s"; its trace is the push followed by the pull. -/
theorem c3_effect_order_witness :
    (reqPush "s").test = false ∧
    (∀ s, reqSid (reqPush "s") = some s → (dget stOne.sessions s).isSome) ∧
    (∃ sid sess,
      [Effect.pushEv "s" 5, Effect.pullMsgs "s"] =
        (if (reqPush "s").method = Method.post
          then [Effect.pushEv sid (reqPush "s").payload] else [])
        ++ (if envEx.now - stOne.lastCheckTs > REMOVE_EXPIRED_SESSIONS_INTERVAL
            then [Effect.sweepRun] else [])
        ++ [Effect.pullMsgs sid]
        ++ (if Session.closed
              (if (reqPush "s").method = Method.post
               then send_client_event sess (reqPush "s").payload else sess)
            then [Effect.removeSession sid]
            else if reqSid (reqPush "s") = none then [Effect.headerSet sid] else []) ∧
      ((reqPush "s").method = Method.get →
        ∀ s e, Effect.pushEv s e ∉ [Effect.pushEv "s" 5, Effect.pullMsgs "s"]) ∧
      ((reqPush "s").method = Method.post →
        ∃ l1 l2, [Effect.pushEv "s" 5, Effect.pullMsgs "s"] =
          l1 ++ Effect.pullMsgs sid :: l2 ∧
          Effect.pushEv sid (reqPush "s").payload ∈ l1)) :=
  ⟨rfl,
    fun s hs => by
      have hs2 : "s" = s := Option.some.inj hs
      rw [← hs2]
      decide,
    c3_effect_order 0 DEFAULT_SESSION_EXPIRE_SECONDS envEx (reqPush "s") stOne
      { sessions := [("s",
          { kind := SessionKind.threadBased, entry := 0, pushed := [5],
            msgs := [Msg.mk "output" 1], closedFlag := false })],
        expire := [("s", 990)], lastCheckTs := 1000 }
      (HttpResponse.json [Msg.mk "output" 1] none)
      [Effect.pushEv "s" 5, Effect.pullMsgs "s"]
      rfl
      (fun s hs => by
        have hs2 : "s" = s := Option.some.inj hs
        rw [← hs2]
        decide)
      (by decide)⟩

end PyWebIO
